import Mathlib

/-!
Verification development for the capstone data pipeline
(main-pipeline.py / sql_queries.py), shallowly embedded in Lean 4.

Strings manipulated by the pipeline's text-level operations are modelled as
`List Char`; record-level fields stay `String`.  Machine floating point ratings
are modelled as exact rationals (`Rat`); the distributed dataframe engine's
row collections are modelled as Lean lists (row order never matters for the
properties below, only counts and membership).
-/

/-- The single-quote character, used in the text normalizer's patterns. -/
def squote : Char := '\x27'

/-- Boolean test that the first list is an initial run of the second
(the prefix test used by substring search). -/
def leadsWith : List Char → List Char → Bool
  | [], _ => true
  | _ :: _, [] => false
  | a :: as, b :: bs => a == b && leadsWith as bs

/-- Find the leftmost occurrence of `sep` in a string, returning the part
before it and the part after it; `none` when `sep` does not occur.
Models the scanning step shared by Python `str.split(sep)` and the
Java regex engine's literal-pattern search. -/
def splitFirst (sep : List Char) : List Char → Option (List Char × List Char)
  | [] => none
  | c :: cs =>
    if leadsWith sep (c :: cs) then some ([], List.drop (sep.length - 1) cs)
    else (splitFirst sep cs).map (fun pr => (c :: pr.1, pr.2))

/-- Fuel-indexed splitting loop.  Each iteration consumes at least one input
character when `sep` is non-empty, so fuel equal to the input length is
always sufficient (when fuel runs out the remainder is necessarily empty). -/
def strSplitGo (sep : List Char) : Nat → List Char → List (List Char)
  | 0, s => [s]
  | fuel + 1, s =>
    match splitFirst sep s with
    | none => [s]
    | some (pre, post) => pre :: strSplitGo sep fuel post

/-- Split a string on every occurrence of a non-empty separator, keeping empty
segments: the shared semantics of Python `str.split(", ")` in `extract_usa`
and Spark `F.split(col, " ")` (Java `split` with limit -1). -/
def strSplit (sep s : List Char) : List (List Char) :=
  strSplitGo sep s.length s

/-- Boolean test that `pat` occurs as a contiguous run inside the string. -/
def containsSub (pat : List Char) : List Char → Bool
  | [] => pat.isEmpty
  | c :: cs => leadsWith pat (c :: cs) || containsSub pat cs

/-- Fuel-indexed global replacement loop: leftmost occurrence of `pat` is
replaced by `rep` and scanning resumes after the replacement (the
`regexp_replace` semantics for the literal patterns used by the pipeline).
Fuel equal to the input length is always sufficient. -/
def replaceAllGo (pat rep : List Char) : Nat → List Char → List Char
  | 0, s => s
  | _ + 1, [] => []
  | fuel + 1, c :: cs =>
    if !pat.isEmpty && leadsWith pat (c :: cs) then
      rep ++ replaceAllGo pat rep fuel (List.drop (pat.length - 1) cs)
    else
      c :: replaceAllGo pat rep fuel cs

/-- Replace every (leftmost, non-overlapping) occurrence of `pat` by `rep`. -/
def replaceAll (pat rep s : List Char) : List Char :=
  replaceAllGo pat rep s.length s

/-- One line of `to_spark_friendly_json` (main-pipeline.py lines 41-46): the
six `regexp_replace` passes applied in source order.  The patterns are all
literal: `False`, `True`, `None`, `u` + single quote, `u` + double quote, and
backslash-`x` (regex `\\x`), the last replaced by backslash-`u00`. -/
def to_spark_friendly_line (s : List Char) : List Char :=
  replaceAll ['\\', 'x'] ['\\', 'u', '0', '0']
    (replaceAll ['u', '"'] ['"']
      (replaceAll ['u', squote] [squote]
        (replaceAll "None".toList "null".toList
          (replaceAll "True".toList "true".toList
            (replaceAll "False".toList "false".toList s)))))

/-- ASCII uppercase letter, the `[A-Z]` class of the zipcode regex. -/
def isUpperAZ (c : Char) : Bool := 'A' ≤ c && c ≤ 'Z'

/-- ASCII digit, the `\d` class of the zipcode regex (restricted to the ASCII
range, which covers every input considered here). -/
def isDigit09 (c : Char) : Bool := '0' ≤ c && c ≤ '9'

/-- The Python regex `\s` whitespace class (ASCII range). -/
def pyWhitespace (c : Char) : Bool :=
  c == ' ' || c == '\t' || c == '\n' || c == '\r' || c == '\x0b' || c == '\x0c'

/-- `re.search("^[A-Z]{2}\s\d{5}", s)` from `extract_usa`: because of the `^`
anchor (and no MULTILINE flag) the pattern can only match at position 0, and
`match.group()` is the 8 matched characters. -/
def usaMatch : List Char → Option (List Char)
  | c0 :: c1 :: c2 :: c3 :: c4 :: c5 :: c6 :: c7 :: _ =>
    if isUpperAZ c0 && isUpperAZ c1 && pyWhitespace c2 &&
       isDigit09 c3 && isDigit09 c4 && isDigit09 c5 && isDigit09 c6 && isDigit09 c7
    then some [c0, c1, c2, c3, c4, c5, c6, c7]
    else none
  | _ => none

/-- Python-level failures surfaced by the embedded UDF code. -/
inductive PyErr where
  | indexError
deriving DecidableEq

/-- `extract_usa` (main-pipeline.py lines 63-72): take `address[-1]` (an
out-of-range access on an empty address), split it on `", "`, take the last
segment, and search for the US zipcode pattern; return the matched text or
`None`. -/
def extract_usa (address : List String) : Except PyErr (Option String) :=
  match address.getLast? with
  | none => Except.error PyErr.indexError
  | some lastLine =>
    Except.ok ((usaMatch ((strSplit [',', ' '] lastLine.toList).getLastD [])).map String.mk)

/-- The last `", "`-separated segment of the last address element
(the text `extract_usa` runs the regex over, for a non-empty address). -/
def lastSegment (address : List String) : List Char :=
  (strSplit [',', ' '] (address.getLastD "").toList).getLastD []

/-- `F.split(col, " ").getItem(i)` applied to the (nullable) matched zipcode
text: `null` input gives `null`, and an out-of-range item gives `null`. -/
def splitGetStr (sz : Option String) (i : Nat) : Option String :=
  sz.bind (fun s => ((strSplit [' '] s.toList).get? i).map String.mk)

/-- A raw place record as parsed from the fixed json (after dropping
`phone`, `closed`, `gps`, `hours`). -/
structure RawPlace where
  gPlusPlaceId : String
  name : String
  address : List String
  price : Option String
deriving DecidableEq

/-- A place record as written to `prepped/places`. -/
structure EnrichedPlace where
  gPlusPlaceId : String
  name : String
  address : String
  state : Option String
  postcode : Option String
  country : Option String
  price : Option Nat
  population : Option Nat
deriving DecidableEq

/-- The population aggregation plus left join of `process_places`: group the
population csv rows by zipcode, sum them, and look the given postcode up
(`none` when no csv row has that zipcode). -/
def popFor (pops : List (String × Nat)) (z : String) : Option Nat :=
  match pops.filter (fun r => r.1 = z) with
  | [] => none
  | ms => some ((ms.map (fun r => r.2)).sum)

/-- The per-record enrichment of `process_places` (main-pipeline.py lines
74-93): run the `extract_usa` udf, derive `state`/`postcode` by splitting the
match on a literal space, set `country` to `"USA"` exactly when `state` is
non-null, rejoin the address, turn `price` into its length, and left-join the
aggregated population by postcode. -/
def enrichPlace (pops : List (String × Nat)) (p : RawPlace) : Except PyErr EnrichedPlace :=
  (extract_usa p.address).map (fun sz =>
    { gPlusPlaceId := p.gPlusPlaceId
      name := p.name
      address := String.intercalate "," p.address
      state := splitGetStr sz 0
      postcode := splitGetStr sz 1
      country := if (splitGetStr sz 0).isNone then none else some "USA"
      price := p.price.map String.length
      population := (splitGetStr sz 1).bind (popFor pops) })

/-- Monadic map over `Except`, built by plain recursion: Spark runs the udf
on every row and the first raised Python error fails the whole job. -/
def mapExc (f : α → Except ε β) : List α → Except ε (List β)
  | [] => Except.ok []
  | a :: as => do
    let b ← f a
    let bs ← mapExc f as
    pure (b :: bs)

/-- `process_places`: enrich every parsed place record; a Python error raised
inside the udf fails the whole Spark job. -/
def process_places (raws : List RawPlace) (pops : List (String × Nat)) :
    Except PyErr (List EnrichedPlace) :=
  mapExc (enrichPlace pops) raws

/-- The local hour of an epoch-seconds timestamp
(`F.hour(F.from_unixtime(t))`, with the session timezone modelled as UTC). -/
def localHour (t : Int) : Nat :=
  ((t % 86400).toNat) / 3600

/-- The `day_night` when-chain of `process_reviews` (main-pipeline.py lines
115-119), exactly as written: `night` when `hour < 8 OR hour >= 18`, else
`day` when `hour >= 8 OR hour < 18`, else null. -/
def day_night_of_hour (h : Nat) : Option String :=
  if h < 8 ∨ 18 ≤ h then some "night"
  else if 8 ≤ h ∨ h < 18 then some "day"
  else none

/-- A raw review record as parsed from the fixed json (after dropping
`reviewerName`). -/
structure RawReview where
  gPlusPlaceId : String
  gPlusUserId : String
  rating : Rat
  unixReviewTime : Int
  categories : Option (List String)
deriving DecidableEq

/-- A review record as written to `prepped/reviews`. -/
structure EnrichedReview where
  gPlusPlaceId : String
  gPlusUserId : String
  rating : Rat
  reviewTime : Int
  day_night : Option String
  userAvgRating : Rat
  categories : Option (List String)
deriving DecidableEq

/-- The ratings of all reviews in `raws` sharing the given user id. -/
def userRatings (raws : List RawReview) (uid : String) : List Rat :=
  (raws.filter (fun r => r.gPlusUserId = uid)).map (fun r => r.rating)

/-- `F.avg("rating").over(Window.partitionBy("gPlusUserId"))`: the sum of the
ratings in the user's partition divided by the partition size. -/
def windowAvgRating (raws : List RawReview) (uid : String) : Rat :=
  (userRatings raws uid).sum / ((userRatings raws uid).length : Rat)

/-- The per-row enrichment of `process_reviews` (main-pipeline.py lines
110-123): keep the timestamp, derive `day_night` from its local hour, and
attach the windowed per-user average rating. -/
def enrichReview (raws : List RawReview) (r : RawReview) : EnrichedReview :=
  { gPlusPlaceId := r.gPlusPlaceId
    gPlusUserId := r.gPlusUserId
    rating := r.rating
    reviewTime := r.unixReviewTime
    day_night := day_night_of_hour (localHour r.unixReviewTime)
    userAvgRating := windowAvgRating raws r.gPlusUserId
    categories := r.categories }

/-- `process_reviews`: enrich every parsed review; no row is dropped at this
stage, and the window runs over the full parsed dataset. -/
def process_reviews (raws : List RawReview) : List EnrichedReview :=
  raws.map (enrichReview raws)

/-- Spec-side definition of the arithmetic mean of one user's ratings over
the full reviews set (the quantity the spec says `userAvgRating` equals). -/
def specUserMean (raws : List RawReview) (uid : String) : Rat :=
  ((userRatings raws uid).sum) / ((userRatings raws uid).length : Rat)

/-- A joined (pre-explosion) lake row: one category-bearing review paired
with a matching USA place. -/
structure JoinedRow where
  gPlusPlaceId : String
  gPlusUserId : String
  rating : Rat
  userAvgRating : Rat
  day_night : Option String
  categories : List String
  state : Option String
  postcode : Option String
  country : Option String
deriving DecidableEq

/-- A post-explosion lake row: one (review, category) pair. -/
structure LakeRow where
  gPlusPlaceId : String
  gPlusUserId : String
  rating : Rat
  userAvgRating : Rat
  day_night : Option String
  category : String
  state : Option String
  postcode : Option String
  country : Option String
deriving DecidableEq

/-- Build a joined row from a review and a matching place (the review's
`categories` is non-null here because of the preceding filter). -/
def mkJoined (r : EnrichedReview) (p : EnrichedPlace) : JoinedRow :=
  { gPlusPlaceId := r.gPlusPlaceId
    gPlusUserId := r.gPlusUserId
    rating := r.rating
    userAvgRating := r.userAvgRating
    day_night := r.day_night
    categories := r.categories.getD []
    state := p.state
    postcode := p.postcode
    country := p.country }

/-- One exploded row for one category value of a joined row. -/
def toLake (j : JoinedRow) (c : String) : LakeRow :=
  { gPlusPlaceId := j.gPlusPlaceId
    gPlusUserId := j.gPlusUserId
    rating := j.rating
    userAvgRating := j.userAvgRating
    day_night := j.day_night
    category := c
    state := j.state
    postcode := j.postcode
    country := j.country }

/-- `reviews_df.filter(reviews_df.categories.isNotNull())`. -/
def filteredReviews (rs : List EnrichedReview) : List EnrichedReview :=
  rs.filter (fun r => r.categories.isSome)

/-- `places_df.filter(places_df.country == "USA")` (a null country never
equals `"USA"`, so such rows are dropped). -/
def filteredPlaces (ps : List EnrichedPlace) : List EnrichedPlace :=
  ps.filter (fun p => p.country = some "USA")

/-- The inner join of the filtered reviews with the filtered places on
`gPlusPlaceId` (one output row per matching (review, place) pair). -/
def joinedLake (rs : List EnrichedReview) (ps : List EnrichedPlace) : List JoinedRow :=
  (filteredReviews rs).flatMap
    (fun r => ((filteredPlaces ps).filter (fun p => p.gPlusPlaceId = r.gPlusPlaceId)).map (mkJoined r))

/-- `F.explode` of the `categories` column: one row per category value, and a
row with an empty category list disappears. -/
def explodedRows (rs : List EnrichedReview) (ps : List EnrichedPlace) : List LakeRow :=
  (joinedLake rs ps).flatMap (fun j => j.categories.map (toLake j))

/-- `F.count("gPlusPlaceId").over(Window.partitionBy("category"))`: the size
of the category's partition (`gPlusPlaceId` is never null here). -/
def catCount (rows : List LakeRow) (c : String) : Nat :=
  (rows.filter (fun row => row.category = c)).length

/-- The rows surviving the rare-category filter `num_reviews_for_cat > 10`. -/
def keptRows (rs : List EnrichedReview) (ps : List EnrichedPlace) : List LakeRow :=
  (explodedRows rs ps).filter (fun row => catCount (explodedRows rs ps) row.category > 10)

/-- `lake.select("category").distinct().count()` before the rare-category
filter. -/
def preFilterCount (rs : List EnrichedReview) (ps : List EnrichedPlace) : Nat :=
  ((explodedRows rs ps).map (fun row => row.category)).dedup.length

/-- `lake.select("category").distinct().count()` after the rare-category
filter. -/
def postFilterCount (rs : List EnrichedReview) (ps : List EnrichedPlace) : Nat :=
  ((keptRows rs ps).map (fun row => row.category)).dedup.length

/-- `create_data_lake` (main-pipeline.py lines 128-173) on the prepped
datasets: filter, join, check the join cardinality, explode categories,
filter rare categories, check the distinct-category counts, and check the
written lakes are non-empty (both written lakes hold the same rows, so both
read-back counts equal `(keptRows rs ps).length`). -/
def create_data_lake (rs : List EnrichedReview) (ps : List EnrichedPlace) :
    Except String (List LakeRow) :=
  if (joinedLake rs ps).length > (filteredReviews rs).length then
    Except.error "Join resulted in too many rows"
  else if postFilterCount rs ps ≥ preFilterCount rs ps then
    Except.error "Categories were incorrectly filtered"
  else if (keptRows rs ps).length = 0 then
    Except.error "Data lakes were not populated"
  else
    Except.ok (keptRows rs ps)

/-- The warehouse statements named by sql_queries.py. -/
inductive Stmt where
  | stagingDrop
  | stagingCreate
  | stagingCopy
  | stagingFilter
  | dropReviews
  | dropUsers
  | dropPlaces
  | dropPopulation
  | createUsers
  | createPlaces
  | createPopulation
  | createReviews
  | insertUsers
  | insertPlaces
  | insertPopulation
  | insertReviews
deriving DecidableEq

/-- Observable events of the warehouse-sync functions: a statement being
attempted (`cur.execute` + `conn.commit`), and a caught failure being
printed. -/
inductive Event where
  | attempt (s : Stmt)
  | logged (s : Stmt) (msg : String)
deriving DecidableEq

/-- `drop_table_queries` (sql_queries.py line 105). -/
def drop_table_queries : List Stmt :=
  [Stmt.dropReviews, Stmt.dropUsers, Stmt.dropPlaces, Stmt.dropPopulation]

/-- `create_table_queries` (sql_queries.py line 104). -/
def create_table_queries : List Stmt :=
  [Stmt.createUsers, Stmt.createPlaces, Stmt.createPopulation, Stmt.createReviews]

/-- `insert_table_queries` (sql_queries.py line 106). -/
def insert_table_queries : List Stmt :=
  [Stmt.insertUsers, Stmt.insertPlaces, Stmt.insertPopulation, Stmt.insertReviews]

/-- One `try: cur.execute(q); conn.commit() except Exception as e: print(e)`
block: the statement is attempted against the warehouse behaviour `exec`, and
a raised failure is caught and logged instead of propagating. -/
def tryStep (exec : Stmt → Except String Unit) (s : Stmt) : Except String (List Event) :=
  Except.tryCatch
    (do
      let _ ← exec s
      pure [Event.attempt s])
    (fun e => pure [Event.attempt s, Event.logged s e])

/-- The event trace one statement produces: always an attempt, plus a log
entry exactly when the warehouse reports a failure. -/
def stepTrace (exec : Stmt → Except String Unit) (s : Stmt) : List Event :=
  match exec s with
  | Except.ok _ => [Event.attempt s]
  | Except.error e => [Event.attempt s, Event.logged s e]

/-- Run a list of statements in order, each inside its own try/except. -/
def runQueries (exec : Stmt → Except String Unit) : List Stmt → Except String (List Event)
  | [] => pure []
  | q :: qs => do
    let e ← tryStep exec q
    let es ← runQueries exec qs
    pure (e ++ es)

/-- `load_staging_table` (main-pipeline.py lines 176-206): drop, create, copy
and filter the staging table, each statement in its own try/except. -/
def load_staging_table (exec : Stmt → Except String Unit) : Except String (List Event) :=
  runQueries exec [Stmt.stagingDrop, Stmt.stagingCreate, Stmt.stagingCopy, Stmt.stagingFilter]

/-- `load_final_tables` (main-pipeline.py lines 208-230): the drop-all,
create-all and insert-all loops, each statement in its own try/except. -/
def load_final_tables (exec : Stmt → Except String Unit) : Except String (List Event) :=
  runQueries exec (drop_table_queries ++ create_table_queries ++ insert_table_queries)

/-- Executing `sql_check_filled` = `SELECT COUNT(*) FROM public.{table}` and
fetching all result rows: a COUNT aggregate always yields exactly one result
row, holding the table's row count (`db` maps a table name to its row
count). -/
def sql_check_filled_rows (db : String → Nat) (table : String) : List (List Nat) :=
  [[db table]]

/-- `check_data_quality` (main-pipeline.py lines 233-242): for each table,
run the fill-check query and raise when the query returned zero rows. -/
def check_data_quality (db : String → Nat) : List String → Except String Unit
  | [] => Except.ok ()
  | t :: ts =>
    if (sql_check_filled_rows db t).length = 0 then
      Except.error ("Data quality check failed. Table " ++ t ++ " is empty")
    else
      check_data_quality db ts

/-- The fixed table list passed to `check_data_quality` by `main`. -/
def quality_tables : List String :=
  ["reviews", "places", "population", "users"]

deriving instance DecidableEq for Except

/-- Spec-side predicate: the `state` field holds a valid 2-letter code. -/
def validState2 : Option String → Bool
  | none => false
  | some s => s.toList.length == 2 && s.toList.all isUpperAZ

/-- Spec-side predicate: the `postcode` field holds a valid 5-digit string. -/
def validZip5 : Option String → Bool
  | none => false
  | some s => s.toList.length == 5 && s.toList.all isDigit09

/-- Whether the character at index 2 of a matched zipcode text (the character
matched by the regex's `\s`) is a literal space. -/
def spaceAt2 (m : List Char) : Bool := m.get? 2 == some ' '

/-- Spec-side pattern from the claim's wording: two uppercase letters, one
literal space, five digits, anchored at the start. -/
def specMatchSpacePattern : List Char → Bool
  | c0 :: c1 :: c2 :: d0 :: d1 :: d2 :: d3 :: d4 :: _ =>
    isUpperAZ c0 && isUpperAZ c1 && (c2 == ' ') &&
      isDigit09 d0 && isDigit09 d1 && isDigit09 d2 && isDigit09 d3 && isDigit09 d4
  | _ => false

/-- A place whose zipcode segment uses a tab where the regex's `\s` matched:
the pattern accepts it but the space-based split cannot separate it. -/
def tabPlace : RawPlace :=
  { gPlusPlaceId := "p1", name := "TabPlace", address := ["CA\t90210"], price := none }

/-- The enriched record `process_places` produces for `tabPlace`. -/
def tabEnriched : EnrichedPlace :=
  { gPlusPlaceId := "p1", name := "TabPlace", address := "CA\t90210",
    state := some "CA\t90210", postcode := none, country := some "USA",
    price := none, population := none }

/-- A place with an ordinary US address (spec section 8's end-to-end row). -/
def usaPlace : RawPlace :=
  { gPlusPlaceId := "p1", name := "Cafe One",
    address := ["123 Main St", "Los Angeles, CA 90210"], price := some "$$" }

/-- The enriched record `process_places` produces for `usaPlace` with the
population row `("90210", 150)`. -/
def usaEnriched : EnrichedPlace :=
  { gPlusPlaceId := "p1", name := "Cafe One",
    address := "123 Main St,Los Angeles, CA 90210",
    state := some "CA", postcode := some "90210", country := some "USA",
    price := some 2, population := some 150 }

/-- A place whose address has no US zipcode pattern. -/
def noMatchPlace : RawPlace :=
  { gPlusPlaceId := "p2", name := "Abroad", address := ["10 Downing St", "London"], price := none }

/-- A place record with an empty address array. -/
def emptyAddrPlace : RawPlace :=
  { gPlusPlaceId := "p3", name := "Nowhere", address := [], price := none }

/-- An already-enriched review for the lake-builder test data. -/
def mkTestReview (pid uid : String) (cats : List String) : EnrichedReview :=
  { gPlusPlaceId := pid, gPlusUserId := uid, rating := 4, reviewTime := 0,
    day_night := some "night", userAvgRating := 4, categories := some cats }

/-- An already-enriched USA place for the lake-builder test data. -/
def mkTestPlace (pid : String) : EnrichedPlace :=
  { gPlusPlaceId := pid, name := "n", address := "a", state := some "CA",
    postcode := some "90210", country := some "USA", price := some 2, population := some 150 }

/-- Two places sharing one `gPlusPlaceId` key. -/
def dupPlaces : List EnrichedPlace := [mkTestPlace "p1", mkTestPlace "p1"]

/-- Two reviews referencing the duplicated key. -/
def dupReviews : List EnrichedReview :=
  [mkTestReview "p1" "u1" ["Cafe"], mkTestReview "p1" "u2" ["Cafe"]]

/-- A category list in which `"A"` occurs 11 times and `"B"` once, so the
rare-category filter keeps `"A"` and drops `"B"`. -/
def wCats : List String :=
  ["A", "A", "A", "A", "A", "A", "A", "A", "A", "A", "A", "B"]

/-- Lake-builder witness input: one review carrying `wCats`. -/
def wlakeReviews : List EnrichedReview := [mkTestReview "p1" "u1" wCats]

/-- Lake-builder witness input: one matching USA place. -/
def wlakePlaces : List EnrichedPlace := [mkTestPlace "p1"]

/-- A surviving exploded row of the lake-builder witness input. -/
def wlakeRow : LakeRow :=
  toLake (mkJoined (mkTestReview "p1" "u1" wCats) (mkTestPlace "p1")) "A"

/-- Raw review witness data: user `"u1"` rates 3 at 09:00 UTC. -/
def wRawRev1 : RawReview :=
  { gPlusPlaceId := "p1", gPlusUserId := "u1", rating := 3,
    unixReviewTime := 32400, categories := some wCats }

/-- Raw review witness data: the same user rates 5 at midnight UTC. -/
def wRawRev2 : RawReview :=
  { gPlusPlaceId := "p1", gPlusUserId := "u1", rating := 5,
    unixReviewTime := 0, categories := some ["A"] }

/-- The two-review raw input for the reviews-enricher witnesses. -/
def wRaws : List RawReview := [wRawRev1, wRawRev2]

/-- The enriched form of `wRawRev1` (the head of `process_reviews wRaws`). -/
def wEnr1 : EnrichedReview := enrichReview wRaws wRawRev1

/-- The enriched form of `wRawRev2`. -/
def wEnr2 : EnrichedReview := enrichReview wRaws wRawRev2

/-- A lake row descending from `wRawRev1` that survives the whole
lake-builder pipeline. -/
def wRowC6 : LakeRow := toLake (mkJoined wEnr1 (mkTestPlace "p1")) "A"

/-- One try/except block always succeeds and produces exactly the step's
attempt-and-maybe-log trace, whatever the warehouse does. -/
theorem tryStep_ok (exec : Stmt → Except String Unit) (s : Stmt) :
    tryStep exec s = Except.ok (stepTrace exec s) := by
  unfold tryStep stepTrace
  cases hx : exec s <;>
    simp [hx, Except.tryCatch, Bind.bind, Except.bind, Pure.pure, Except.pure]

/-- Running a statement list under the log-and-continue policy always
succeeds, with every statement attempted in order. -/
theorem runQueries_ok (exec : Stmt → Except String Unit) (qs : List Stmt) :
    runQueries exec qs = Except.ok (qs.flatMap (stepTrace exec)) := by
  induction qs with
  | nil => rfl
  | cons q qs ih =>
    unfold runQueries
    rw [tryStep_ok, ih]
    rfl

/-- Claim C1 (code-bug evidence): `check_data_quality` can never raise.  The
fill-check query is `SELECT COUNT(*)`, which always returns exactly one
result row, so the `len(rows) == 0` test in the source is always false and
the function reports success even when every listed table has zero rows —
contradicting its own docstring, its error message, and the spec's fatal
fill-check. -/
theorem check_data_quality_never_raises :
    (∀ (db : String → Nat) (tables : List String),
      check_data_quality db tables = Except.ok ())
    ∧ check_data_quality (fun _ => 0) quality_tables = Except.ok () := by
  constructor
  · intro db tables
    induction tables with
    | nil => rfl
    | cons t ts ih => simpa [check_data_quality, sql_check_filled_rows] using ih
  · rfl

/-- Claim C9: in `load_staging_table` and `load_final_tables` every single
statement failure is caught and logged, every subsequent statement is still
executed, and no exception escapes: for every warehouse behaviour `exec`,
both functions return normally with the full ordered attempt trace, where a
log event follows exactly the statements whose execution failed. -/
theorem warehouse_log_and_continue (exec : Stmt → Except String Unit) :
    load_staging_table exec =
      Except.ok (([Stmt.stagingDrop, Stmt.stagingCreate, Stmt.stagingCopy,
        Stmt.stagingFilter]).flatMap (stepTrace exec))
    ∧ load_final_tables exec =
      Except.ok ((drop_table_queries ++ create_table_queries ++
        insert_table_queries).flatMap (stepTrace exec)) := by
  exact ⟨runQueries_ok exec _, runQueries_ok exec _⟩

/-- Claim C4: `create_data_lake` raises the fatal join error exactly when the
row count of the inner join (before category explosion) strictly exceeds the
filtered review count; and on a places set with a duplicated `gPlusPlaceId`
referenced by multiple reviews, the error fires. -/
theorem join_cardinality_check (rs : List EnrichedReview) (ps : List EnrichedPlace) :
    (create_data_lake rs ps = Except.error "Join resulted in too many rows"
      ↔ (joinedLake rs ps).length > (filteredReviews rs).length)
    ∧ create_data_lake dupReviews dupPlaces =
        Except.error "Join resulted in too many rows" := by
  constructor
  · unfold create_data_lake
    by_cases h1 : (joinedLake rs ps).length > (filteredReviews rs).length
    · simp [h1]
    · rw [if_neg h1]
      by_cases h2 : postFilterCount rs ps ≥ preFilterCount rs ps
      · simp [h1, h2]
      · rw [if_neg h2]
        by_cases h3 : (keptRows rs ps).length = 0 <;> simp [h1, h3]
  · decide

/-- Claim C5: after category explosion, the kept rows are exactly the
exploded rows whose category occurs in more than 10 exploded rows, and
(given the join check passed) the fatal category error fires exactly when
the post-filter distinct-category count is not strictly below the pre-filter
count. -/
theorem rare_category_filter (rs : List EnrichedReview) (ps : List EnrichedPlace)
    (row : LakeRow)
    (hA : ¬ (joinedLake rs ps).length > (filteredReviews rs).length) :
    (row ∈ keptRows rs ps ↔
      row ∈ explodedRows rs ps ∧ catCount (explodedRows rs ps) row.category > 10)
    ∧ (create_data_lake rs ps = Except.error "Categories were incorrectly filtered"
        ↔ postFilterCount rs ps ≥ preFilterCount rs ps) := by
  constructor
  · simp [keptRows, List.mem_filter]
  · unfold create_data_lake
    rw [if_neg hA]
    by_cases h2 : postFilterCount rs ps ≥ preFilterCount rs ps
    · simp [h2]
    · rw [if_neg h2]
      by_cases h3 : (keptRows rs ps).length = 0 <;> simp [h2, h3]

/-- Witness for claim C5 on concrete data: one review with category `"A"`
11 times and `"B"` once; `"A"` survives the threshold, `"B"` does not, the
distinct count drops from 2 to 1, and no error fires. -/
theorem rare_category_filter_witness :
    (¬ (joinedLake wlakeReviews wlakePlaces).length > (filteredReviews wlakeReviews).length)
    ∧ ((wlakeRow ∈ keptRows wlakeReviews wlakePlaces ↔
          wlakeRow ∈ explodedRows wlakeReviews wlakePlaces ∧
            catCount (explodedRows wlakeReviews wlakePlaces) wlakeRow.category > 10)
        ∧ (create_data_lake wlakeReviews wlakePlaces =
              Except.error "Categories were incorrectly filtered"
            ↔ postFilterCount wlakeReviews wlakePlaces ≥ preFilterCount wlakeReviews wlakePlaces)) :=
  ⟨by decide, rare_category_filter wlakeReviews wlakePlaces wlakeRow (by decide)⟩

/-- The when-chain collapses to the two-sided rule: `day` on [8,18), `night`
otherwise (the second branch's tautological condition closes every gap). -/
theorem day_night_of_hour_eq (h : Nat) :
    day_night_of_hour h = some (if 8 ≤ h ∧ h < 18 then "day" else "night") := by
  unfold day_night_of_hour
  by_cases h1 : h < 8 ∨ 18 ≤ h
  · rw [if_pos h1, if_neg (by omega)]
  · rw [if_neg h1, if_pos (by omega), if_pos (by omega)]

/-- Every output row of `process_reviews` is the enrichment of an input row. -/
theorem mem_process_reviews {raws : List RawReview} {er : EnrichedReview}
    (h : er ∈ process_reviews raws) :
    ∃ r ∈ raws, er = enrichReview raws r := by
  obtain ⟨r, hr, hre⟩ := List.mem_map.1 h
  exact ⟨r, hr, hre.symm⟩

/-- Claim C2: for every enriched review, `day_night` is `"day"` exactly when
the local hour of its timestamp lies in [8,18) and `"night"` exactly
otherwise; no review and no hour value yields an absent `day_night`; and the
boundary hours behave as stated (7 to night, 8 and 17 to day, 18 to night). -/
theorem day_night_rule (raws : List RawReview) (er : EnrichedReview) (h : Nat)
    (hmem : er ∈ process_reviews raws) :
    (er.day_night = some "day" ↔
      8 ≤ localHour er.reviewTime ∧ localHour er.reviewTime < 18)
    ∧ (er.day_night = some "night" ↔
      ¬ (8 ≤ localHour er.reviewTime ∧ localHour er.reviewTime < 18))
    ∧ er.day_night ≠ none
    ∧ day_night_of_hour h ≠ none
    ∧ day_night_of_hour 7 = some "night"
    ∧ day_night_of_hour 8 = some "day"
    ∧ day_night_of_hour 17 = some "day"
    ∧ day_night_of_hour 18 = some "night" := by
  obtain ⟨r, _, rfl⟩ := mem_process_reviews hmem
  have hdn : (enrichReview raws r).day_night =
      day_night_of_hour (localHour (enrichReview raws r).reviewTime) := rfl
  rw [hdn, day_night_of_hour_eq, day_night_of_hour_eq h]
  by_cases hc : 8 ≤ localHour (enrichReview raws r).reviewTime ∧
      localHour (enrichReview raws r).reviewTime < 18 <;>
    simp [hc] <;> decide

/-- Every review row's `userAvgRating` is the spec-side mean of that user's
ratings over the full parsed input. -/
theorem process_reviews_avg {raws : List RawReview} {er : EnrichedReview}
    (h : er ∈ process_reviews raws) :
    er.userAvgRating = specUserMean raws er.gPlusUserId := by
  obtain ⟨r, _, rfl⟩ := mem_process_reviews h
  rfl

/-- Every row surviving the lake builder's category filter carries the
`userAvgRating` and `gPlusUserId` of some review that passed the
categories-not-null filter. -/
theorem kept_row_from_review {rs : List EnrichedReview} {ps : List EnrichedPlace}
    {row : LakeRow} (h : row ∈ keptRows rs ps) :
    ∃ er ∈ filteredReviews rs,
      row.userAvgRating = er.userAvgRating ∧ row.gPlusUserId = er.gPlusUserId := by
  have hx : row ∈ explodedRows rs ps := (List.mem_filter.1 h).1
  obtain ⟨j, hj, hrowj⟩ := List.mem_flatMap.1 hx
  obtain ⟨c, _, hcrow⟩ := List.mem_map.1 hrowj
  obtain ⟨er, her, hj2⟩ := List.mem_flatMap.1 hj
  obtain ⟨p, _, hpj⟩ := List.mem_map.1 hj2
  subst hpj
  subst hcrow
  exact ⟨er, her, rfl, rfl⟩

/-- Claim C6: `userAvgRating` is identical on every review row of one user
and equals the arithmetic mean of that user's ratings over the full enriched
reviews set, and the value carried by any lake row surviving the join and
the category filter is still that same full-set mean. -/
theorem user_avg_rating_stable (raws : List RawReview) (ps : List EnrichedPlace)
    (r1 r2 : EnrichedReview) (row : LakeRow)
    (h1 : r1 ∈ process_reviews raws) (h2 : r2 ∈ process_reviews raws)
    (hu : r1.gPlusUserId = r2.gPlusUserId)
    (hrow : row ∈ keptRows (process_reviews raws) ps) :
    r1.userAvgRating = r2.userAvgRating
    ∧ r1.userAvgRating = specUserMean raws r1.gPlusUserId
    ∧ row.userAvgRating = specUserMean raws row.gPlusUserId := by
  refine ⟨?_, process_reviews_avg h1, ?_⟩
  · rw [process_reviews_avg h1, process_reviews_avg h2, hu]
  · obtain ⟨er, her, havg, huid⟩ := kept_row_from_review hrow
    have hmem : er ∈ process_reviews raws := (List.mem_filter.1 her).1
    rw [havg, huid, process_reviews_avg hmem]

/-- Witness for claim C6 on concrete data: user `"u1"` rates 3 and 5, the
mean 4 is attached to both rows and to a lake row surviving the category
filter, and the mean evaluates to 4. -/
theorem user_avg_rating_stable_witness :
    (wEnr1 ∈ process_reviews wRaws)
    ∧ (wRowC6 ∈ keptRows (process_reviews wRaws) [mkTestPlace "p1"])
    ∧ (wEnr1.userAvgRating = wEnr2.userAvgRating
        ∧ wEnr1.userAvgRating = specUserMean wRaws wEnr1.gPlusUserId
        ∧ wRowC6.userAvgRating = specUserMean wRaws wRowC6.gPlusUserId)
    ∧ specUserMean wRaws "u1" = 4 := by
  refine ⟨List.Mem.head _, List.Mem.head _,
    user_avg_rating_stable wRaws [mkTestPlace "p1"] wEnr1 wEnr2 wRowC6
      (List.Mem.head _) (List.Mem.tail _ (List.Mem.head _)) rfl (List.Mem.head _), ?_⟩
  norm_num [specUserMean, userRatings, wRaws, wRawRev1, wRawRev2]

/-- Witness for claim C2 on concrete data: the 09:00 UTC review is a `"day"`
row of `process_reviews wRaws`, and the boundary-hour facts hold. -/
theorem day_night_rule_witness :
    (wEnr1 ∈ process_reviews wRaws)
    ∧ ((wEnr1.day_night = some "day" ↔
          8 ≤ localHour wEnr1.reviewTime ∧ localHour wEnr1.reviewTime < 18)
        ∧ (wEnr1.day_night = some "night" ↔
          ¬ (8 ≤ localHour wEnr1.reviewTime ∧ localHour wEnr1.reviewTime < 18))
        ∧ wEnr1.day_night ≠ none
        ∧ day_night_of_hour 5 ≠ none
        ∧ day_night_of_hour 7 = some "night"
        ∧ day_night_of_hour 8 = some "day"
        ∧ day_night_of_hour 17 = some "day"
        ∧ day_night_of_hour 18 = some "night") :=
  ⟨List.Mem.head _, day_night_rule wRaws wEnr1 5 (List.Mem.head _)⟩

/-- An uppercase letter is never the space character. -/
theorem upper_not_space {c : Char} (h : isUpperAZ c = true) : (' ' == c) = false := by
  cases hbc : (' ' == c)
  · rfl
  · exact absurd h (by cases (eq_of_beq hbc); decide)

/-- A digit is never the space character. -/
theorem digit_not_space {c : Char} (h : isDigit09 c = true) : (' ' == c) = false := by
  cases hbc : (' ' == c)
  · rfl
  · exact absurd h (by cases (eq_of_beq hbc); decide)

/-- Scanning past a non-space head character. -/
theorem splitFirst_not_space (cs : List Char) (c : Char) (hc : (' ' == c) = false) :
    splitFirst [' '] (c :: cs) = (splitFirst [' '] cs).map (fun pr => (c :: pr.1, pr.2)) := by
  simp [splitFirst, leadsWith, hc]

/-- The scan stops at a space. -/
theorem splitFirst_space (cs : List Char) :
    splitFirst [' '] (' ' :: cs) = some ([], cs) := by
  simp [splitFirst, leadsWith]

/-- A string with no space has no space occurrence to split at. -/
theorem splitFirst_none_of_no_space (l : List Char)
    (h : ∀ c ∈ l, (' ' == c) = false) :
    splitFirst [' '] l = none := by
  induction l with
  | nil => rfl
  | cons c cs ih =>
    rw [splitFirst_not_space cs c (h c (List.mem_cons_self c cs)),
      ih (fun x hx => h x (List.mem_cons_of_mem c hx))]
    rfl

/-- Splitting a string with no space on the space separator is the identity
(one segment). -/
theorem strSplit_no_space (l : List Char) (h : ∀ c ∈ l, (' ' == c) = false) :
    strSplit [' '] l = [l] := by
  have hsf := splitFirst_none_of_no_space l h
  unfold strSplit
  cases hn : l.length with
  | zero => rfl
  | succ n => simp [strSplitGo, hsf]

/-- Splitting an 8-character matched zipcode text whose third character is a
space yields exactly the 2-letter part and the 5-digit part. -/
theorem strSplit_space_mid (c0 c1 d0 d1 d2 d3 d4 : Char)
    (h0 : (' ' == c0) = false) (h1 : (' ' == c1) = false)
    (hds : ∀ c ∈ [d0, d1, d2, d3, d4], (' ' == c) = false) :
    strSplit [' '] [c0, c1, ' ', d0, d1, d2, d3, d4] = [[c0, c1], [d0, d1, d2, d3, d4]] := by
  have hsf : splitFirst [' '] [c0, c1, ' ', d0, d1, d2, d3, d4] =
      some ([c0, c1], [d0, d1, d2, d3, d4]) := by
    rw [splitFirst_not_space _ _ h0, splitFirst_not_space _ _ h1, splitFirst_space]
    rfl
  have hsf2 := splitFirst_none_of_no_space [d0, d1, d2, d3, d4] hds
  show strSplitGo [' '] 8 [c0, c1, ' ', d0, d1, d2, d3, d4] = _
  simp [strSplitGo, hsf, hsf2]

/-- Inverting a successful `usaMatch`: the match is 8 characters long, two
uppercase letters, one whitespace character, five digits. -/
theorem usaMatch_shape (cs m : List Char) (h : usaMatch cs = some m) :
    ∃ c0 c1 c2 d0 d1 d2 d3 d4,
      m = [c0, c1, c2, d0, d1, d2, d3, d4]
      ∧ isUpperAZ c0 = true ∧ isUpperAZ c1 = true ∧ pyWhitespace c2 = true
      ∧ isDigit09 d0 = true ∧ isDigit09 d1 = true ∧ isDigit09 d2 = true
      ∧ isDigit09 d3 = true ∧ isDigit09 d4 = true := by
  match cs, h with
  | c0 :: c1 :: c2 :: c3 :: c4 :: c5 :: c6 :: c7 :: rest, h =>
    simp only [usaMatch] at h
    by_cases hcond : (isUpperAZ c0 && isUpperAZ c1 && pyWhitespace c2 &&
        isDigit09 c3 && isDigit09 c4 && isDigit09 c5 && isDigit09 c6 && isDigit09 c7) = true
    · rw [if_pos hcond] at h
      injection h with h
      simp only [Bool.and_eq_true] at hcond
      exact ⟨c0, c1, c2, c3, c4, c5, c6, c7, h.symm,
        hcond.1.1.1.1.1.1.1, hcond.1.1.1.1.1.1.2, hcond.1.1.1.1.1.2,
        hcond.1.1.1.1.2, hcond.1.1.1.2, hcond.1.1.2, hcond.1.2, hcond.2⟩
    · rw [if_neg hcond] at h
      cases h

/-- Inverting a successful `mapExc`: every output element is the successful
image of some input element. -/
theorem mapExc_ok_mem {α β ε : Type} {f : α → Except ε β} :
    ∀ {l : List α} {out : List β}, mapExc f l = Except.ok out →
      ∀ {b : β}, b ∈ out → ∃ a ∈ l, f a = Except.ok b := by
  intro l
  induction l with
  | nil =>
    intro out h b hb
    simp only [mapExc] at h
    injection h with h
    subst h
    cases hb
  | cons a as ih =>
    intro out h b hb
    unfold mapExc at h
    cases hfa : f a with
    | error e => rw [hfa] at h; exact absurd h (by simp [Bind.bind, Except.bind])
    | ok b0 =>
      rw [hfa] at h
      cases hrest : mapExc f as with
      | error e =>
        rw [hrest] at h
        exact absurd h (by simp [Bind.bind, Except.bind, Pure.pure, Except.pure])
      | ok bs =>
        rw [hrest] at h
        simp only [Bind.bind, Except.bind, Pure.pure, Except.pure] at h
        injection h with h
        subst h
        rcases List.mem_cons.1 hb with rfl | htail
        · exact ⟨a, List.mem_cons_self a as, hfa⟩
        · obtain ⟨a2, ha2, hfa2⟩ := ih hrest htail
          exact ⟨a2, List.mem_cons_of_mem a ha2, hfa2⟩

/-- Unfolding equation for `splitGetStr` on a present value. -/
theorem splitGetStr_some (s : String) (i : Nat) :
    splitGetStr (some s) i = ((strSplit [' '] s.toList).get? i).map String.mk := rfl

/-- The characters of a string built from a character list. -/
theorem string_mk_toList (l : List Char) : (String.mk l).toList = l := rfl

/-- `extract_usa` on a non-empty address runs the zipcode search on the last
comma-space segment of the last address element. -/
theorem extract_usa_ok (address : List String) (lastLine : String)
    (hLast : address.getLast? = some lastLine) :
    extract_usa address = Except.ok ((usaMatch (lastSegment address)).map String.mk) := by
  have haddr : address.getLastD "" = lastLine := by
    rw [List.getLastD_eq_getLast?, hLast]
    rfl
  unfold extract_usa
  rw [hLast]
  show Except.ok ((usaMatch ((strSplit [',', ' '] lastLine.toList).getLastD [])).map String.mk) = _
  rw [show lastSegment address = (strSplit [',', ' '] lastLine.toList).getLastD [] from by
    unfold lastSegment
    rw [haddr]]

/-- A successful `enrichPlace` determines the geographic fields from the
`extract_usa` result exactly as the Spark column expressions compute them. -/
theorem enrichPlace_ok_fields {pops : List (String × Nat)} {p : RawPlace}
    {e : EnrichedPlace} (he : enrichPlace pops p = Except.ok e) :
    ∃ sz, extract_usa p.address = Except.ok sz
      ∧ e.state = splitGetStr sz 0
      ∧ e.postcode = splitGetStr sz 1
      ∧ e.country = (if (splitGetStr sz 0).isNone then none else some "USA") := by
  unfold enrichPlace at he
  cases hx : extract_usa p.address with
  | error err => rw [hx] at he; exact absurd he (by simp [Except.map])
  | ok sz =>
    rw [hx] at he
    simp only [Except.map] at he
    injection he with he
    subst he
    exact ⟨sz, rfl, rfl, rfl, rfl⟩

/-- Full case analysis of the geographic enrichment of one surviving place
record: no zipcode match leaves all three fields absent; a match always sets
`country = "USA"`; a match whose whitespace is a literal space yields the
valid 2-letter state and 5-digit postcode halves; a match whose whitespace
is any other whitespace character yields the whole 8-character match as
`state` and an absent `postcode`. -/
theorem enrichPlace_cases {pops : List (String × Nat)} {p : RawPlace}
    {e : EnrichedPlace} (he : enrichPlace pops p = Except.ok e) :
    p.address ≠ []
    ∧ (usaMatch (lastSegment p.address) = none →
        e.state = none ∧ e.postcode = none ∧ e.country = none)
    ∧ (∀ m, usaMatch (lastSegment p.address) = some m →
        e.country = some "USA"
        ∧ (spaceAt2 m = true →
            e.state = some (String.mk (m.take 2))
            ∧ e.postcode = some (String.mk (m.drop 3))
            ∧ validState2 e.state = true ∧ validZip5 e.postcode = true)
        ∧ (spaceAt2 m = false →
            e.state = some (String.mk m) ∧ e.postcode = none)) := by
  obtain ⟨sz, hx, hst, hpc, hco⟩ := enrichPlace_ok_fields he
  cases hLast : p.address.getLast? with
  | none =>
    exfalso
    unfold extract_usa at hx
    rw [hLast] at hx
    cases hx
  | some lastLine =>
    have hne : p.address ≠ [] := by
      intro hnil
      rw [hnil] at hLast
      cases hLast
    have hsz : sz = (usaMatch (lastSegment p.address)).map String.mk := by
      rw [extract_usa_ok p.address lastLine hLast] at hx
      injection hx with hx
      exact hx.symm
    refine ⟨hne, ?_, ?_⟩
    · intro hnone
      rw [hnone] at hsz
      simp only [Option.map_none'] at hsz
      subst hsz
      exact ⟨hst, hpc, by rw [hco]; rfl⟩
    · intro m hm
      rw [hm] at hsz
      simp only [Option.map_some'] at hsz
      subst hsz
      obtain ⟨c0, c1, c2, d0, d1, d2, d3, d4, hmeq, hc0, hc1, hc2, hd0, hd1, hd2, hd3, hd4⟩ :=
        usaMatch_shape _ m hm
      subst hmeq
      have hds : ∀ c ∈ [d0, d1, d2, d3, d4], (' ' == c) = false := by
        intro c hc
        simp only [List.mem_cons, List.not_mem_nil, or_false] at hc
        rcases hc with rfl | rfl | rfl | rfl | rfl
        · exact digit_not_space hd0
        · exact digit_not_space hd1
        · exact digit_not_space hd2
        · exact digit_not_space hd3
        · exact digit_not_space hd4
      cases hsp : (' ' == c2) with
      | true =>
        have hc2sp : c2 = ' ' := (eq_of_beq hsp).symm
        subst hc2sp
        have hsplit := strSplit_space_mid c0 c1 d0 d1 d2 d3 d4
          (upper_not_space hc0) (upper_not_space hc1) hds
        have hstate : splitGetStr (some (String.mk [c0, c1, ' ', d0, d1, d2, d3, d4])) 0 =
            some (String.mk [c0, c1]) := by
          rw [splitGetStr_some, string_mk_toList, hsplit]
          rfl
        have hpost : splitGetStr (some (String.mk [c0, c1, ' ', d0, d1, d2, d3, d4])) 1 =
            some (String.mk [d0, d1, d2, d3, d4]) := by
          rw [splitGetStr_some, string_mk_toList, hsplit]
          rfl
        refine ⟨by rw [hco, hstate]; rfl, fun _ => ⟨?_, ?_, ?_, ?_⟩, fun hf => ?_⟩
        · rw [hst, hstate]
          rfl
        · rw [hpc, hpost]
          rfl
        · rw [hst, hstate]
          simp [validState2, string_mk_toList, hc0, hc1]
        · rw [hpc, hpost]
          simp [validZip5, string_mk_toList, hd0, hd1, hd2, hd3, hd4]
        · exact absurd hf (by simp [spaceAt2])
      | false =>
        have hall : ∀ c ∈ [c0, c1, c2, d0, d1, d2, d3, d4], (' ' == c) = false := by
          intro c hc
          simp only [List.mem_cons, List.not_mem_nil, or_false] at hc
          rcases hc with rfl | rfl | rfl | hcrest
          · exact upper_not_space hc0
          · exact upper_not_space hc1
          · exact hsp
          · apply hds
            simp only [List.mem_cons, List.not_mem_nil, or_false]
            exact hcrest
        have hsplit := strSplit_no_space [c0, c1, c2, d0, d1, d2, d3, d4] hall
        have hstate : splitGetStr (some (String.mk [c0, c1, c2, d0, d1, d2, d3, d4])) 0 =
            some (String.mk [c0, c1, c2, d0, d1, d2, d3, d4]) := by
          rw [splitGetStr_some, string_mk_toList, hsplit]
          rfl
        have hpost : splitGetStr (some (String.mk [c0, c1, c2, d0, d1, d2, d3, d4])) 1 = none := by
          rw [splitGetStr_some, string_mk_toList, hsplit]
          rfl
        have hspace2 : spaceAt2 [c0, c1, c2, d0, d1, d2, d3, d4] = (c2 == ' ') := rfl
        have hc2ne : (c2 == ' ') = false := by
          cases hzz : (c2 == ' ')
          · rfl
          · rw [eq_of_beq hzz] at hsp
            exact absurd hsp (by decide)
        refine ⟨by rw [hco, hstate]; rfl, fun ht => ?_, fun _ => ⟨?_, ?_⟩⟩
        · rw [hspace2, hc2ne] at ht
          cases ht
        · rw [hst, hstate]
        · rw [hpc, hpost]

/-- Counterexample to claim C3 as stated: the address `["CA\t90210"]` (tab
between state and zipcode) survives enrichment with `country = "USA"` while
its `postcode` is absent and its `state` is not a valid 2-letter code, so
`country = "USA"` does not imply that both fields are present and valid. -/
theorem country_usa_with_postcode_absent_cex :
    process_places [tabPlace] [] = Except.ok [tabEnriched]
    ∧ tabEnriched.country = some "USA"
    ∧ tabEnriched.postcode = none
    ∧ validState2 tabEnriched.state = false := by decide

/-- Claim C3 (amended): for every surviving place record, `country = "USA"`
holds exactly when `state` is present; and whenever `postcode` is also
present, `state` is a valid 2-letter code and `postcode` a valid 5-digit
string (the original two-sided claim fails only when the regex's `\s`
matched a non-space whitespace character, which leaves `postcode` absent). -/
theorem country_usa_iff_state_present (raws : List RawPlace) (pops : List (String × Nat))
    (out : List EnrichedPlace) (e : EnrichedPlace)
    (hout : process_places raws pops = Except.ok out) (he : e ∈ out) :
    (e.country = some "USA" ↔ e.state.isSome = true)
    ∧ (e.postcode.isSome = true →
        validState2 e.state = true ∧ validZip5 e.postcode = true) := by
  obtain ⟨p, _, hp⟩ := mapExc_ok_mem hout he
  obtain ⟨_, hnone, hsome⟩ := enrichPlace_cases hp
  cases hm : usaMatch (lastSegment p.address) with
  | none =>
    obtain ⟨hst, hpc, hco⟩ := hnone hm
    rw [hst, hpc, hco]
    exact ⟨by simp, by simp⟩
  | some m =>
    obtain ⟨hco, hspace, hnospace⟩ := hsome m hm
    cases hsp : spaceAt2 m with
    | true =>
      obtain ⟨hst, hpc, hv2, hv5⟩ := hspace hsp
      constructor
      · rw [hco, hst]
        simp
      · exact fun _ => ⟨hv2, hv5⟩
    | false =>
      obtain ⟨hst, hpc⟩ := hnospace hsp
      constructor
      · rw [hco, hst]
        simp
      · intro hq
        rw [hpc] at hq
        cases hq

/-- Witness for claim C3 (amended) on the ordinary address
`["123 Main St", "Los Angeles, CA 90210"]`: country, state and postcode all
present and valid. -/
theorem country_usa_iff_state_present_witness :
    (process_places [usaPlace] [("90210", 150)] = Except.ok [usaEnriched])
    ∧ (usaEnriched ∈ [usaEnriched])
    ∧ ((usaEnriched.country = some "USA" ↔ usaEnriched.state.isSome = true)
        ∧ (usaEnriched.postcode.isSome = true →
            validState2 usaEnriched.state = true ∧ validZip5 usaEnriched.postcode = true)) :=
  ⟨by decide, List.Mem.head _,
    country_usa_iff_state_present [usaPlace] [("90210", 150)] [usaEnriched] usaEnriched
      (by decide) (List.Mem.head _)⟩

/-- Counterexample to claim C7 as stated: the last segment of
`["CA\t90210"]` does not match the claimed pattern of two uppercase letters,
one literal space and five digits, yet extraction leaves `state` and
`country` present instead of all-absent (the source regex uses `\s`, which
also accepts the tab). -/
theorem extraction_space_pattern_cex :
    specMatchSpacePattern (lastSegment tabPlace.address) = false
    ∧ enrichPlace [] tabPlace = Except.ok tabEnriched
    ∧ tabEnriched.state ≠ none
    ∧ tabEnriched.country ≠ none := by decide

/-- Claim C7 (amended): for every place record surviving enrichment (so with
a non-empty address), letting the regex run on the last `", "`-segment of
the last address element: no match leaves `state`, `postcode` and `country`
all absent; a match sets `country = "USA"`, and yields the matched
state/postcode pair exactly when the matched whitespace is a literal space,
while any other matched whitespace character yields the whole 8-character
match as `state` and leaves `postcode` absent. -/
theorem extraction_match_cases (p : RawPlace) (pops : List (String × Nat))
    (e : EnrichedPlace) (he : enrichPlace pops p = Except.ok e) :
    (usaMatch (lastSegment p.address) = none →
        e.state = none ∧ e.postcode = none ∧ e.country = none)
    ∧ ((usaMatch (lastSegment p.address)).isSome = true → e.country = some "USA")
    ∧ ((usaMatch (lastSegment p.address)).map spaceAt2 = some true →
        e.state = (usaMatch (lastSegment p.address)).map (fun m => String.mk (m.take 2))
        ∧ e.postcode = (usaMatch (lastSegment p.address)).map (fun m => String.mk (m.drop 3)))
    ∧ ((usaMatch (lastSegment p.address)).map spaceAt2 = some false →
        e.state = (usaMatch (lastSegment p.address)).map String.mk ∧ e.postcode = none) := by
  obtain ⟨_, hnone, hsome⟩ := enrichPlace_cases he
  cases hm : usaMatch (lastSegment p.address) with
  | none =>
    refine ⟨fun _ => hnone hm, fun h => ?_, fun h => ?_, fun h => ?_⟩
    · cases h
    · cases h
    · cases h
  | some m =>
    obtain ⟨hco, hspace, hnospace⟩ := hsome m hm
    refine ⟨fun h => ?_, fun _ => hco, fun h => ?_, fun h => ?_⟩
    · cases h
    · simp only [Option.map_some'] at h
      injection h with h
      obtain ⟨hst, hpc, _, _⟩ := hspace h
      exact ⟨hst, hpc⟩
    · simp only [Option.map_some'] at h
      injection h with h
      exact hnospace h

/-- Witness for claim C7 (amended) on the ordinary address: the regex
matches `"CA 90210"` with a literal space and extraction yields the
`("CA", "90210")` pair with `country = "USA"`. -/
theorem extraction_match_cases_witness :
    (enrichPlace [("90210", 150)] usaPlace = Except.ok usaEnriched)
    ∧ ((usaMatch (lastSegment usaPlace.address) = none →
          usaEnriched.state = none ∧ usaEnriched.postcode = none ∧ usaEnriched.country = none)
        ∧ ((usaMatch (lastSegment usaPlace.address)).isSome = true →
            usaEnriched.country = some "USA")
        ∧ ((usaMatch (lastSegment usaPlace.address)).map spaceAt2 = some true →
            usaEnriched.state =
              (usaMatch (lastSegment usaPlace.address)).map (fun m => String.mk (m.take 2))
            ∧ usaEnriched.postcode =
              (usaMatch (lastSegment usaPlace.address)).map (fun m => String.mk (m.drop 3)))
        ∧ ((usaMatch (lastSegment usaPlace.address)).map spaceAt2 = some false →
            usaEnriched.state = (usaMatch (lastSegment usaPlace.address)).map String.mk
            ∧ usaEnriched.postcode = none)) :=
  ⟨by decide,
    extraction_match_cases usaPlace [("90210", 150)] usaEnriched (by decide)⟩

/-- Claim C10: `extract_usa` fails with an index error on the empty address
(and this failure propagates through the place enrichment), is total on
every non-empty address, and on a no-match non-empty address the enriched
`state`, `postcode` and `country` are all absent. -/
theorem extract_usa_totality (addr : List String) (p q : RawPlace)
    (pops : List (String × Nat))
    (_hne : addr ≠ []) (hp : p.address = [])
    (hq : q.address = addr) (hqm : extract_usa addr = Except.ok none) :
    extract_usa ([] : List String) = Except.error PyErr.indexError
    ∧ (extract_usa addr).isOk = true
    ∧ enrichPlace pops p = Except.error PyErr.indexError
    ∧ (enrichPlace pops q).map (fun e => e.state) = Except.ok none
    ∧ (enrichPlace pops q).map (fun e => e.postcode) = Except.ok none
    ∧ (enrichPlace pops q).map (fun e => e.country) = Except.ok none := by
  refine ⟨rfl, ?_, ?_, ?_, ?_, ?_⟩
  · rw [hqm]
    rfl
  · unfold enrichPlace
    rw [hp]
    rfl
  · unfold enrichPlace
    rw [hq, hqm]
    rfl
  · unfold enrichPlace
    rw [hq, hqm]
    rfl
  · unfold enrichPlace
    rw [hq, hqm]
    rfl

/-- Witness for claim C10: a place with an empty address fails enrichment
with the index error, while the non-matching address
`["10 Downing St", "London"]` is processed totally with all three
geographic fields absent. -/
theorem extract_usa_totality_witness :
    ((["10 Downing St", "London"] : List String) ≠ [])
    ∧ (emptyAddrPlace.address = [])
    ∧ (noMatchPlace.address = ["10 Downing St", "London"])
    ∧ (extract_usa ["10 Downing St", "London"] = Except.ok none)
    ∧ (extract_usa ([] : List String) = Except.error PyErr.indexError
        ∧ (extract_usa ["10 Downing St", "London"]).isOk = true
        ∧ enrichPlace [] emptyAddrPlace = Except.error PyErr.indexError
        ∧ (enrichPlace [] noMatchPlace).map (fun e => e.state) = Except.ok none
        ∧ (enrichPlace [] noMatchPlace).map (fun e => e.postcode) = Except.ok none
        ∧ (enrichPlace [] noMatchPlace).map (fun e => e.country) = Except.ok none) :=
  ⟨by decide, rfl, rfl, by decide,
    extract_usa_totality ["10 Downing St", "London"] emptyAddrPlace noMatchPlace []
      (by decide) rfl rfl (by decide)⟩

/-- A pattern that occurs nowhere in the input is never replaced, at any
fuel. -/
theorem replaceAllGo_id (pat rep : List Char) :
    ∀ (fuel : Nat) (s : List Char), containsSub pat s = false →
      replaceAllGo pat rep fuel s = s := by
  intro fuel
  induction fuel with
  | zero => intro s _; rfl
  | succ fuel ih =>
    intro s h
    cases s with
    | nil => rfl
    | cons c cs =>
      unfold containsSub at h
      rw [Bool.or_eq_false_iff] at h
      unfold replaceAllGo
      simp [h.1, ih cs h.2]

/-- `regexp_replace` with a pattern absent from the input is the identity. -/
theorem replaceAll_id (pat rep s : List Char) (h : containsSub pat s = false) :
    replaceAll pat rep s = s :=
  replaceAllGo_id pat rep s.length s h

/-- Claim C8: the text normalizer rewrites `False`/`True`/`None` to
`false`/`true`/`null`, strips the `u` of the two unicode-string prefix
markers, rewrites `\x` byte-escape markers to `\u00`, and leaves a line
containing none of the six patterns byte-for-byte unchanged. -/
theorem normalizer_rewrites (s : List Char)
    (hF : containsSub "False".toList s = false)
    (hT : containsSub "True".toList s = false)
    (hN : containsSub "None".toList s = false)
    (hq1 : containsSub ['u', squote] s = false)
    (hq2 : containsSub ['u', '"'] s = false)
    (hbx : containsSub ['\\', 'x'] s = false) :
    to_spark_friendly_line s = s
    ∧ to_spark_friendly_line "False".toList = "false".toList
    ∧ to_spark_friendly_line "True".toList = "true".toList
    ∧ to_spark_friendly_line "None".toList = "null".toList
    ∧ to_spark_friendly_line ("u".toList ++ [squote] ++ "hi".toList ++ [squote]) =
        [squote] ++ "hi".toList ++ [squote]
    ∧ to_spark_friendly_line "u\"hi\"".toList = "\"hi\"".toList
    ∧ to_spark_friendly_line "\\xe9".toList = "\\u00e9".toList
    ∧ to_spark_friendly_line
        ("name: u".toList ++ [squote] ++ "Caf\\xe9".toList ++ [squote] ++ ", open: False".toList)
      = "name: ".toList ++ [squote] ++ "Caf\\u00e9".toList ++ [squote] ++ ", open: false".toList := by
  refine ⟨?_, by decide, by decide, by decide, by decide, by decide, by decide, by decide⟩
  unfold to_spark_friendly_line
  rw [replaceAll_id _ _ _ hF, replaceAll_id _ _ _ hT, replaceAll_id _ _ _ hN,
    replaceAll_id _ _ _ hq1, replaceAll_id _ _ _ hq2, replaceAll_id _ _ _ hbx]

/-- Witness for claim C8: the line `"rating: 4"` contains none of the six
patterns and passes through the normalizer unchanged, together with the
concrete rewrite facts. -/
theorem normalizer_rewrites_witness :
    (containsSub "False".toList "rating: 4".toList = false)
    ∧ (containsSub "True".toList "rating: 4".toList = false)
    ∧ (containsSub "None".toList "rating: 4".toList = false)
    ∧ (containsSub ['u', squote] "rating: 4".toList = false)
    ∧ (containsSub ['u', '"'] "rating: 4".toList = false)
    ∧ (containsSub ['\\', 'x'] "rating: 4".toList = false)
    ∧ (to_spark_friendly_line "rating: 4".toList = "rating: 4".toList
        ∧ to_spark_friendly_line "False".toList = "false".toList
        ∧ to_spark_friendly_line "True".toList = "true".toList
        ∧ to_spark_friendly_line "None".toList = "null".toList
        ∧ to_spark_friendly_line ("u".toList ++ [squote] ++ "hi".toList ++ [squote]) =
            [squote] ++ "hi".toList ++ [squote]
        ∧ to_spark_friendly_line "u\"hi\"".toList = "\"hi\"".toList
        ∧ to_spark_friendly_line "\\xe9".toList = "\\u00e9".toList
        ∧ to_spark_friendly_line
            ("name: u".toList ++ [squote] ++ "Caf\\xe9".toList ++ [squote] ++ ", open: False".toList)
          = "name: ".toList ++ [squote] ++ "Caf\\u00e9".toList ++ [squote] ++ ", open: false".toList) :=
  ⟨by decide, by decide, by decide, by decide, by decide, by decide,
    normalizer_rewrites "rating: 4".toList
      (by decide) (by decide) (by decide) (by decide) (by decide) (by decide)⟩
